import Mathlib

/-!
Verification development for the OrchTS orchestration core.

The definitions below are a shallow embedding of the TypeScript source:
  - types.ts        : the data model (Message, Result, ToolCall, ...)
  - agent.ts        : the Agent record and its metadata accessors
  - orchts.ts       : the orchestrator (run loop, tool-call executor,
                      result normalizer)

Modelling conventions:
  - JavaScript objects used as string-keyed records are association lists
    that preserve key insertion order; property assignment keeps the
    position of an existing key and appends a new one, exactly as in JS.
  - The serialized tool-call argument string is represented by the outcome
    of JSON.parse on it: some object when it parses, none when JSON.parse
    would throw.
  - A tool implementation is an environment mapping the bound-function id
    stored in the metadata to a function from the positional argument list
    to an outcome (a returned raw value, or a thrown error rendered as a
    string).  The raw return value is classified the same way the source
    classifies it at runtime: an object passing the isResult type guard, an
    Agent instance, a value whose String() rendering succeeds, or a value
    whose String() rendering throws.
  - The completion provider is an abstract function from the provider
    parameters to an optional completion message, matching the
    generateCompletion interface.
-/

/-- A JSON scalar value, as produced by JSON.parse for the argument
payloads used in this development. -/
inductive JValue where
  | str (s : String)
  | num (n : Int)
  | bool (b : Bool)
  | null
deriving DecidableEq, Repr

/-- ContextVariables from types.ts: an open string-keyed record, modelled
as a key-ordered association list. -/
abbrev Ctx := List (String × JValue)

/-- JS property assignment on a record: an existing key keeps its position
and gets the new value, a new key is appended at the end. -/
def setKey {α : Type} : List (String × α) → String → α → List (String × α)
  | [], k, v => [(k, v)]
  | (k0, v0) :: rest, k, v =>
    if k0 = k then (k0, v) :: rest else (k0, v0) :: setKey rest k v

/-- JS object spread of b over a, as in the source's merge of the running
context store with a tool-call result. -/
def objSpread {α : Type} (a b : List (String × α)) : List (String × α) :=
  b.foldl (fun acc kv => setKey acc kv.1 kv.2) a

/-- Message roles from types.ts. -/
inductive Role where
  | user
  | assistant
  | system
  | tool
deriving DecidableEq, BEq, Repr

/-- The function part of a ToolCall.  The arguments field stands for the
serialized payload through its JSON.parse outcome: some object when the
string parses to that object, none when parsing throws. -/
structure ToolCallFunction where
  name : String
  arguments : Option (List (String × JValue))
deriving DecidableEq, Repr

/-- ToolCall from types.ts. -/
structure ToolCall where
  id : String
  function : ToolCallFunction
  type : String
deriving DecidableEq, Repr

/-- Message from types.ts. -/
structure Message where
  role : Role
  content : String
  sender : Option String := none
  tool_calls : Option (List ToolCall) := none
  tool_call_id : Option String := none
  tool_name : Option String := none
deriving DecidableEq, Repr

/-- ToolChoice from types.ts. -/
inductive ToolChoice where
  | none
  | auto
  | required
deriving DecidableEq, BEq, Repr

/-- One parameter descriptor of FunctionMetadata from functions.ts. -/
structure AgentFuncParamMeta where
  name : String
  type : String
  optional : Bool
  description : Option String := none
deriving DecidableEq, Repr

/-- FunctionMetadata from functions.ts.  The bound invocation handle func
is represented by an id resolved in a tool-implementation environment. -/
structure FunctionMetadata where
  name : String
  description : Option String := none
  params : List AgentFuncParamMeta := []
  returnType : String := "void"
  func : Nat
deriving DecidableEq, Repr

/-- A function handle registered on an agent: a JS function value that may
or may not carry the functionMetadata property attached by FunctionBase. -/
structure FuncHandle where
  functionMetadata : Option FunctionMetadata
deriving DecidableEq, Repr

/-- Agent from agent.ts.  Instructions are modelled in their string form;
no claim exercises the function-valued form.  The functions field mirrors
params.functions, which may be absent. -/
structure Agent where
  name : String
  instructions : String
  functions : Option (List FuncHandle) := Option.none
  tool_choice : Option ToolChoice := Option.none
deriving DecidableEq, Repr

/-- Agent.getInstructions for string instructions: returned as-is. -/
def Agent.getInstructions (a : Agent) (_ctxStore : Ctx) : String :=
  a.instructions

/-- Agent.getFunctionMetadata from agent.ts:
this?.params?.functions?.map(f => f?.functionMetadata) || [].
The map keeps one entry per handle; a handle without the property yields
an undefined entry, modelled as none. -/
def Agent.getFunctionMetadata (a : Agent) : List (Option FunctionMetadata) :=
  match a.functions with
  | some fs => fs.map (fun f => f.functionMetadata)
  | Option.none => []

/-- Result from types.ts: the tool return envelope. -/
structure ResultE where
  value : String
  agent : Option Agent := Option.none
  context_variables : Option Ctx := Option.none
  messages : Option (List Message) := Option.none
deriving DecidableEq, Repr

/-- A positional argument handed to a tool implementation: either a parsed
payload value or the injected running context store. -/
inductive Arg where
  | v (val : JValue)
  | ctxArg (c : Ctx)
deriving DecidableEq, Repr

/-- A raw tool return value, classified the way orchts.ts classifies it:
an object passing the isResult guard, an Agent instance, any other value
whose String() rendering is the given string, or a value whose String()
rendering throws (rendered carries the text of whatever error escapes
handleFunctionResult in that case). -/
inductive RawValue where
  | result (r : ResultE)
  | agentV (a : Agent)
  | plain (s : String)
  | unstringable (rendered : String)
deriving DecidableEq, Repr

/-- Outcome of awaiting a tool invocation: a returned value or a thrown
error, the latter carried as its string rendering. -/
inductive FuncOutcome where
  | ret (v : RawValue)
  | throw (e : String)
deriving DecidableEq, Repr

/-- Environment binding the func ids of FunctionMetadata records to tool
behaviours. -/
abbrev Impl := Nat → List Arg → FuncOutcome

/-- Fatal errors of the embedded run: a JSON.parse failure on a tool-call
payload (orchts.ts line 337) and the TypeError raised when the name of an
undefined metadata entry is read while building the tool schema. -/
inductive OrchError where
  | jsonParse (callId : String)
  | undefinedFunctionMetadata
deriving DecidableEq, Repr

/-- ChatCompletionMessage as consumed from the provider. -/
structure ChatCompletionMessage where
  role : Role
  content : Option String := Option.none
  tool_calls : Option (List ToolCall) := Option.none
deriving DecidableEq, Repr

/-- One property of the outward-facing parameter schema built by
functionToObject. -/
structure SchemaProp where
  type : String
  description : Option String := Option.none
deriving DecidableEq, Repr

/-- The function schema object built by functionToObject for the provider. -/
structure ToolSchema where
  name : String
  description : String
  properties : List (String × SchemaProp)
  required : List String
deriving DecidableEq, Repr

/-- functionToObject from orchts.ts: ContextVariables-typed parameters are
excluded from the advertised properties and from the required list. -/
def functionToObject (f : FunctionMetadata) : ToolSchema :=
  { name := f.name
  , description := f.description.getD ("function: " ++ f.name)
  , properties := f.params.foldl
      (fun acc p =>
        if p.type == "ContextVariables" then acc
        else acc ++ [(p.name, { type := p.type, description := p.description })])
      []
  , required := (f.params.filter
      (fun p => !p.optional && p.type != "ContextVariables")).map (fun p => p.name) }

/-- LLMProviderParams from types.ts. -/
structure LLMProviderParams where
  messages : List Message
  tools : Option (List ToolSchema)
  tool_choice : Option ToolChoice
deriving DecidableEq, Repr

/-- The completion provider, abstracted at its generateCompletion
interface. -/
abbrev Provider := LLMProviderParams → Option ChatCompletionMessage

/-- The provider parameters assembled by getChatCompletion: a synthetic
leading system message with the resolved instructions, the tool schema
(undefined when no tools), and the agent's tool-selection policy. -/
def mkProviderParams (agent : Agent) (fns : List FunctionMetadata)
    (messages : List Message) (ctxStore : Ctx) : LLMProviderParams :=
  let tools := fns.map functionToObject
  { messages := { role := Role.system, content := agent.getInstructions ctxStore } :: messages
  , tools := if tools.length != 0 then some tools else Option.none
  , tool_choice := agent.tool_choice }

/-- Resolution of the agent's metadata entries before any use whose first
step reads the name of each entry (functionToObject in getChatCompletion).
An undefined entry makes that read throw; the throw is represented by the
undefinedFunctionMetadata error. -/
def checkFunctionMetadata (a : Agent) : Except OrchError (List FunctionMetadata) :=
  let mds := a.getFunctionMetadata
  if mds.any (fun m => m.isNone) then Except.error OrchError.undefinedFunctionMetadata
  else Except.ok (mds.filterMap id)

/-- The name-to-metadata lookup built once per handleToolCalls invocation:
new Map(functions.map(f => [f.name, f])).get(name); a later duplicate name
overwrites an earlier one, as in a JS Map. -/
def functionMapGet (fns : List FunctionMetadata) (name : String) :
    Option FunctionMetadata :=
  fns.foldl (fun acc f => if f.name = name then some f else acc) Option.none

/-- The argument record assembled before invocation (orchts.ts lines
337-345): the parsed payload in its own key order, with the running
context store assigned to the key named by the ContextVariables-typed
parameter, if the function declares one.  The assignment keeps an existing
key in place and appends a missing one at the end. -/
def buildArgs (fm : FunctionMetadata) (payload : List (String × JValue))
    (ctxStore : Ctx) : List (String × Arg) :=
  let args := payload.map (fun kv => (kv.1, Arg.v kv.2))
  match fm.params.find? (fun p => p.type == "ContextVariables") with
  | some p => setKey args p.name (Arg.ctxArg ctxStore)
  | Option.none => args

/-- The machine-readable note produced for an Agent-valued tool result:
JSON.stringify of an object with an assistant field naming the agent. -/
def agentResultValue (a : Agent) : String :=
  "\x7b\"assistant\":\"" ++ a.name ++ "\"\x7d"

/-- handleFunctionResult from orchts.ts: pass a Result through unchanged,
wrap an Agent into a handoff Result, render anything else as text, and
fail when rendering throws.  The error payload carries the rendering of
whatever error escapes the function in the last case. -/
def handleFunctionResult : RawValue → Except String ResultE
  | RawValue.result r => Except.ok r
  | RawValue.agentV a =>
      Except.ok { value := agentResultValue a, agent := some a
                , context_variables := some [], messages := Option.none }
  | RawValue.plain s =>
      Except.ok { value := s, agent := Option.none
                , context_variables := some [], messages := Option.none }
  | RawValue.unstringable rendered => Except.error rendered

/-- The tool-role message emitted for an unregistered function name. -/
def toolNotFoundMessage (tc : ToolCall) : Message :=
  { role := Role.tool
  , content := "Error: Tool " ++ tc.function.name ++ " not found."
  , tool_call_id := some tc.id
  , tool_name := some tc.function.name }

/-- The tool-role message emitted when an invocation (or the normalization
of its result) throws. -/
def toolErrorMessage (tc : ToolCall) (err : String) : Message :=
  { role := Role.tool
  , content := "Error executing function " ++ tc.function.name ++ ": " ++ err
  , tool_call_id := some tc.id
  , tool_name := some tc.function.name }

/-- The primary tool-role message carrying a normalized result value. -/
def toolResultMessage (tc : ToolCall) (v : String) : Message :=
  { role := Role.tool
  , content := v
  , tool_call_id := some tc.id
  , tool_name := some tc.function.name }

/-- Processing of one tool-call request (the body of the for-loop in
handleToolCalls): the messages it appends and the next-agent it records,
or the fatal JSON.parse error.  A missing function yields the not-found
message; a throwing invocation or a failed normalization yields the
error message (both are caught by the same catch block in the source); a
normalized result yields its primary message followed by any extra
messages it carries. -/
def toolCallStep (impl : Impl) (fns : List FunctionMetadata) (ctxStore : Ctx)
    (tc : ToolCall) : Except OrchError (List Message × Option Agent) :=
  match functionMapGet fns tc.function.name with
  | Option.none => Except.ok ([toolNotFoundMessage tc], Option.none)
  | some fm =>
    match tc.function.arguments with
    | Option.none => Except.error (OrchError.jsonParse tc.id)
    | some payload =>
      match impl fm.func ((buildArgs fm payload ctxStore).map (fun kv => kv.2)) with
      | FuncOutcome.throw e => Except.ok ([toolErrorMessage tc e], Option.none)
      | FuncOutcome.ret raw =>
        match handleFunctionResult raw with
        | Except.error e => Except.ok ([toolErrorMessage tc e], Option.none)
        | Except.ok result =>
            Except.ok (toolResultMessage tc result.value :: (result.messages.getD [])
                      , result.agent)

/-- The partial response accumulated by handleToolCalls. -/
structure ToolCallOutcome where
  messages : List Message
  agent : Option Agent := Option.none
  context_variables : Ctx
deriving DecidableEq, Repr

/-- The sequential for-loop of handleToolCalls over the requested tool
calls.  Note that the accumulator's context_variables field is never
updated by any branch, exactly as in the source, where the result's
context-store contribution is never copied into partialResponse. -/
def handleToolCallsLoop (impl : Impl) (fns : List FunctionMetadata)
    (ctxStore : Ctx) : List ToolCall → ToolCallOutcome →
    Except OrchError ToolCallOutcome
  | [], acc => Except.ok acc
  | tc :: rest, acc =>
    match toolCallStep impl fns ctxStore tc with
    | Except.error e => Except.error e
    | Except.ok (ms, a?) =>
      handleToolCallsLoop impl fns ctxStore rest
        { messages := acc.messages ++ ms
        , agent := match a? with | some a => some a | Option.none => acc.agent
        , context_variables := acc.context_variables }

/-- handleToolCalls from orchts.ts: initialize the partial response with a
spread copy of the incoming context store (equal to it as a pure value)
and process the requests in order. -/
def handleToolCalls (impl : Impl) (toolCalls : List ToolCall)
    (fns : List FunctionMetadata) (ctxStore : Ctx) :
    Except OrchError ToolCallOutcome :=
  handleToolCallsLoop impl fns ctxStore toolCalls
    { messages := [], agent := Option.none, context_variables := ctxStore }

/-- processLLMResponse from orchts.ts: a default assistant message when no
completion was provided; otherwise an assistant message tagged with the
active agent, whose tool_calls are the completion's requests (copied
field by field) when present and non-empty, and an empty list otherwise. -/
def processLLMResponse (completion : Option ChatCompletionMessage)
    (activeAgent : Agent) : Message :=
  match completion with
  | Option.none => { role := Role.assistant, content := "No completion provided" }
  | some c =>
    let base : Message :=
      { role := Role.assistant, content := c.content.getD ""
      , sender := some activeAgent.name, tool_calls := some [] }
    match c.tool_calls with
    | some tcs =>
      if tcs.length > 0 then
        { base with tool_calls := some (tcs.map (fun tc =>
            { id := tc.id
            , function := { name := tc.function.name, arguments := tc.function.arguments }
            , type := tc.type })) }
      else base
    | Option.none => base

/-- The snapshot returned by run.  totalTurns mirrors the source's
turnCount, reported at the end of the run. -/
structure RunOutcome where
  agent : Agent
  messages : List Message
  context_variables : Ctx
  totalTurns : Nat
deriving DecidableEq, Repr

/-- The while-loop of run.  remaining counts how many more iterations the
guard turnCount < max_turns admits, so the guard failing is the remaining
= 0 case.  Each iteration obtains a completion (after the tool schema is
built, where an undefined metadata entry would throw), appends the
processed assistant message, and either executes the requested tool calls
- merging the returned context store by spread, adopting a returned
next-agent (the source's strict-inequality guard only skips a no-op
reassignment), appending the returned messages and counting the turn - or
breaks out of the loop. -/
def runLoop (provider : Provider) (impl : Impl) (execute_tools : Bool) :
    Agent → List Message → Ctx → Nat → Nat → Except OrchError RunOutcome
  | activeAgent, messages, ctxStore, turnCount, 0 =>
      Except.ok { agent := activeAgent, messages := messages
                , context_variables := ctxStore, totalTurns := turnCount }
  | activeAgent, messages, ctxStore, turnCount, remaining + 1 =>
    match checkFunctionMetadata activeAgent with
    | Except.error e => Except.error e
    | Except.ok fns =>
      let completion := provider (mkProviderParams activeAgent fns messages ctxStore)
      let llmMessage := processLLMResponse completion activeAgent
      let messages := messages ++ [llmMessage]
      if (llmMessage.tool_calls.getD []).length != 0 && execute_tools then
        match handleToolCalls impl (llmMessage.tool_calls.getD []) fns ctxStore with
        | Except.error e => Except.error e
        | Except.ok tcr =>
          let ctxStore := objSpread ctxStore tcr.context_variables
          let activeAgent := match tcr.agent with
            | some a => a
            | Option.none => activeAgent
          runLoop provider impl execute_tools activeAgent
            (messages ++ tcr.messages) ctxStore (turnCount + 1) remaining
      else
        Except.ok { agent := activeAgent, messages := messages
                  , context_variables := ctxStore, totalTurns := turnCount }

/-- RunOptions from types.ts (the model_override field is unused by the
core). -/
structure RunOptions where
  agent : Agent
  messages : List Message
  context_variables : Ctx := []
  max_turns : Int
  execute_tools : Bool := true

/-- The JSON round-trip copy of one message, field by field. -/
def deepCopyMessage (m : Message) : Message :=
  { role := m.role, content := m.content, sender := m.sender
  , tool_calls := m.tool_calls, tool_call_id := m.tool_call_id
  , tool_name := m.tool_name }

/-- The JSON round-trip copy of the caller's message array. -/
def deepCopyMessages (ms : List Message) : List Message :=
  ms.map deepCopyMessage

/-- The JSON round-trip copy of the caller's context store. -/
def deepCopyCtx (c : Ctx) : Ctx :=
  c.map (fun kv => (kv.1, kv.2))

/-- run from orchts.ts: deep-copy the caller's messages and context store,
then iterate the turn loop from turn 0 while turnCount < max_turns. -/
def run (provider : Provider) (impl : Impl) (opts : RunOptions) :
    Except OrchError RunOutcome :=
  runLoop provider impl opts.execute_tools opts.agent
    (deepCopyMessages opts.messages) (deepCopyCtx opts.context_variables)
    0 opts.max_turns.toNat

/-- The caller-owned structures passed into run, viewed as mutable cells. -/
structure CallerStore where
  messages : List Message
  context_variables : Ctx
deriving DecidableEq, Repr

/-- run, with the caller's cells threaded explicitly: the body reads them
once to build the deep copies (orchts.ts lines 51-52) and no statement of
the source ever writes through them, so they come back unchanged. -/
def runWithStore (provider : Provider) (impl : Impl) (store : CallerStore)
    (agent : Agent) (max_turns : Int) (execute_tools : Bool) :
    Except OrchError RunOutcome × CallerStore :=
  ( run provider impl
      { agent := agent, messages := store.messages
      , context_variables := store.context_variables
      , max_turns := max_turns, execute_tools := execute_tools }
  , store )

/-- The context store of a normally-completed run. -/
def runCtxOf : Except OrchError RunOutcome → Option Ctx
  | Except.ok r => some r.context_variables
  | Except.error _ => Option.none

/-- The final active agent of a normally-completed run. -/
def runAgentOf : Except OrchError RunOutcome → Option Agent
  | Except.ok r => some r.agent
  | Except.error _ => Option.none

/-- The turn count of a normally-completed run. -/
def runTurnsOf : Except OrchError RunOutcome → Option Nat
  | Except.ok r => some r.totalTurns
  | Except.error _ => Option.none

/-- Whether a run completed without a fatal error. -/
def runIsOk : Except OrchError RunOutcome → Bool
  | Except.ok _ => true
  | Except.error _ => false

/-! Concrete scenario data, used to evaluate the embedded code on the
inputs the claims talk about. -/

/-- The user message opening every concrete scenario. -/
def userMsg : Message := { role := Role.user, content := "hi" }

/-- A tool-call request with the given id, name and parsed payload. -/
def mkToolCall (cid nm : String) (payload : Option (List (String × JValue))) :
    ToolCall :=
  { id := cid, function := { name := nm, arguments := payload }, type := "function" }

/-- A scripted provider: it answers with the given completion until a
tool-role message appears in the history, then with a plain assistant
completion carrying no tool calls (the natural-termination signal). -/
def providerSeq (first : ChatCompletionMessage) : Provider := fun params =>
  if params.messages.any (fun m => m.role == Role.tool) then
    some { role := Role.assistant, content := some "done" }
  else some first

/-- A provider that answers every request with the same completion. -/
def providerLoop (c : ChatCompletionMessage) : Provider := fun _ => some c

/-- An agent whose registered handles carry exactly the given metadata. -/
def agentWith (nm : String) (fms : List FunctionMetadata) : Agent :=
  { name := nm, instructions := "inst"
  , functions := some (fms.map (fun fm => { functionMetadata := some fm })) }

/-- A tool implementation that is never consulted successfully. -/
def implNone : Impl := fun _ _ => FuncOutcome.throw "unused"

/- C1 scenario: one turn invokes f1, whose result contributes the context
entry a = 1, then f2, whose result contributes b = 2; the run starts from
the store holding pre = 0 and terminates naturally on the second turn. -/

/-- Metadata of the two contributing tools of the C1 scenario. -/
def fnsC1 : List FunctionMetadata :=
  [ { name := "f1", func := 1 }, { name := "f2", func := 2 } ]

/-- Tool behaviours of the C1 scenario: each returns a Result object whose
context_variables field carries its contribution. -/
def implC1 : Impl := fun id _ =>
  if id = 1 then
    FuncOutcome.ret (RawValue.result
      { value := "r1", context_variables := some [("a", JValue.num 1)] })
  else
    FuncOutcome.ret (RawValue.result
      { value := "r2", context_variables := some [("b", JValue.num 2)] })

/-- Provider of the C1 scenario. -/
def providerC1 : Provider := providerSeq
  { role := Role.assistant
  , tool_calls := some [mkToolCall "c1" "f1" (some []), mkToolCall "c2" "f2" (some [])] }

/-- Run options of the C1 scenario. -/
def optsC1 : RunOptions :=
  { agent := agentWith "A" fnsC1, messages := [userMsg]
  , context_variables := [("pre", JValue.num 0)], max_turns := 5 }

/- C2 scenarios: a provider that always requests a registered tool with an
unparseable payload (the counterexample), and one that always requests an
unknown tool (the witness that the bound is attained). -/

/-- Metadata of the registered tool of the C2 counterexample. -/
def fnsC2 : List FunctionMetadata := [ { name := "g", func := 4 } ]

/-- A completion requesting the registered tool g with a payload that
JSON.parse rejects. -/
def cBad : ChatCompletionMessage :=
  { role := Role.assistant, tool_calls := some [mkToolCall "b1" "g" Option.none] }

/-- Run options of the C2 counterexample: maxTurns = 3, as in the spec's
end-to-end scenario. -/
def optsC2bad : RunOptions :=
  { agent := agentWith "A2" fnsC2, messages := [userMsg], max_turns := 3 }

/-- A completion requesting an unregistered tool with a valid payload. -/
def cUnknown : ChatCompletionMessage :=
  { role := Role.assistant, tool_calls := some [mkToolCall "u1" "nosuch" (some [])] }

/-- Run options of the C2 witness: one allowed turn. -/
def optsC2w : RunOptions :=
  { agent := agentWith "W" [], messages := [userMsg], max_turns := 1 }

/-- The assistant message recorded on the single turn of the C2 witness. -/
def llmC2w : Message :=
  { role := Role.assistant, content := "", sender := some "W"
  , tool_calls := some [mkToolCall "u1" "nosuch" (some [])] }

/-- The outcome of the C2 witness run: one tool-execution cycle, whose
request was answered by the not-found message. -/
def outC2w : RunOutcome :=
  { agent := agentWith "W" []
  , messages := [userMsg, llmC2w, toolNotFoundMessage (mkToolCall "u1" "nosuch" (some []))]
  , context_variables := [], totalTurns := 1 }

/- C4 scenario: the single registered tool returns a value whose String()
rendering throws. -/

/-- Metadata of the registered tool of the C4 scenario. -/
def fnsC4 : List FunctionMetadata := [ { name := "f", func := 7 } ]

/-- Tool behaviour of the C4 scenario: the returned value cannot be cast
to a string. -/
def implC4 : Impl := fun _ _ => FuncOutcome.ret (RawValue.unstringable "boom")

/-- Provider of the C4 scenario. -/
def providerC4 : Provider := providerSeq
  { role := Role.assistant, tool_calls := some [mkToolCall "c1" "f" (some [])] }

/-- Run options of the C4 scenario. -/
def optsC4 : RunOptions :=
  { agent := agentWith "A4" fnsC4, messages := [userMsg], max_turns := 5 }

/- C5 scenario: two handoff tools in one turn, and a run in which a tool
hands control to a different agent before the run terminates naturally. -/

/-- Metadata of the two handoff tools of the C5 scenario. -/
def fnsC5 : List FunctionMetadata :=
  [ { name := "h1", func := 101 }, { name := "h2", func := 102 } ]

/-- The two requests of the C5 same-turn scenario. -/
def tc1C5 : ToolCall := mkToolCall "t1" "h1" (some [])

/-- The second request of the C5 same-turn scenario. -/
def tc2C5 : ToolCall := mkToolCall "t2" "h2" (some [])

/-- Tool behaviours of the C5 same-turn scenario: h1 returns the first
agent, h2 the second. -/
def implC5 (a1 a2 : Agent) : Impl := fun id _ =>
  if id = 101 then FuncOutcome.ret (RawValue.agentV a1)
  else FuncOutcome.ret (RawValue.agentV a2)

/-- The initial agent of the C5 handoff run, owning one handoff tool. -/
def agentA5 (nm : String) : Agent := agentWith nm [ { name := "handoff", func := 55 } ]

/-- A tool behaviour that always returns the given agent. -/
def implConst (b : Agent) : Impl := fun _ _ => FuncOutcome.ret (RawValue.agentV b)

/-- Provider of the C5 handoff run. -/
def providerC5 : Provider := providerSeq
  { role := Role.assistant, tool_calls := some [mkToolCall "t" "handoff" (some [])] }

/-- Run options of the C5 handoff run. -/
def optsC5 (nm : String) : RunOptions :=
  { agent := agentA5 nm, messages := [userMsg], max_turns := 5 }

/- C7 artifacts: a function declaring its context-store parameter first,
and one whose payload arrives with its keys in reversed order. -/

/-- C7: metadata declaring the context-store parameter at position 0 and a
string parameter x at position 1. -/
def fmC7 : FunctionMetadata :=
  { name := "g7"
  , params := [ { name := "cv", type := "ContextVariables", optional := false }
              , { name := "x", type := "string", optional := false } ]
  , func := 3 }

/-- C7: metadata declaring two plain parameters a then b. -/
def fmC7b : FunctionMetadata :=
  { name := "g7b"
  , params := [ { name := "a", type := "number", optional := false }
              , { name := "b", type := "number", optional := false } ]
  , func := 5 }

/- C8 artifacts: an agent holding one handle with metadata and one handle
without. -/

/-- C8: the metadata carried by the first handle. -/
def fmC8 : FunctionMetadata := { name := "withMeta", func := 9 }

/-- C8: a metadata-carrying handle followed by a handle lacking the
functionMetadata property. -/
def hsC8 : List FuncHandle :=
  [ { functionMetadata := some fmC8 }, { functionMetadata := Option.none } ]

/-- C8: an agent with a metadata-carrying handle followed by a handle
lacking the functionMetadata property. -/
def agentC8 : Agent :=
  { name := "A8", instructions := "i", functions := some hsC8 }

/- C9 scenario: a registered tool requested with an unparseable payload. -/

/-- Metadata of the registered tool of the C9 scenario. -/
def fnsC9 : List FunctionMetadata := [ { name := "p", func := 13 } ]

/-- A completion requesting the registered tool p with a payload that
JSON.parse rejects. -/
def cBadC9 : ChatCompletionMessage :=
  { role := Role.assistant, tool_calls := some [mkToolCall "x1" "p" Option.none] }

/-- Run options of the C9 scenario. -/
def optsC9 : RunOptions :=
  { agent := agentWith "A9" fnsC9, messages := [userMsg], max_turns := 2 }

/-- An unknown-tool request used by the C3 witness. -/
def tcU : ToolCall := mkToolCall "u9" "ghost" (some [])

/-- Run options of the C10 witness. -/
def optsC10 : RunOptions :=
  { agent := agentWith "Z" [], messages := [userMsg], max_turns := 0 }

/- C5 witness instantiations. -/

/-- The handoff target of the C5 witness. -/
def agentB5 : Agent := agentWith "B" []

/- C7 witness instantiations: a single plain parameter followed by the
context-store parameter. -/

/-- C7 witness: the plain parameters, in declaration order. -/
def psC7w : List AgentFuncParamMeta :=
  [ { name := "a", type := "string", optional := false } ]

/-- C7 witness: the context-store parameter, declared last. -/
def ctxPC7w : AgentFuncParamMeta :=
  { name := "cv", type := "ContextVariables", optional := false }

/-- C7 witness: the function metadata declaring a then cv. -/
def fmC7w : FunctionMetadata :=
  { name := "gw", params := psC7w ++ [ctxPC7w], func := 12 }

/-- The list of messages of a normally-completed run. -/
def runMsgsOf : Except OrchError RunOutcome → List Message
  | Except.ok r => r.messages
  | Except.error _ => []

/-! Helper lemmas shared by the claim theorems. -/

/-- One unfolding of the loop body, used to step the loop exactly once in
proofs. -/
theorem runLoop_succ_eq (provider : Provider) (impl : Impl) (et : Bool)
    (a : Agent) (ms : List Message) (c : Ctx) (tc n : Nat) :
    runLoop provider impl et a ms c tc (n + 1) =
      (match checkFunctionMetadata a with
      | Except.error e => Except.error e
      | Except.ok fns =>
        let completion := provider (mkProviderParams a fns ms c)
        let llmMessage := processLLMResponse completion a
        let messages := ms ++ [llmMessage]
        if (llmMessage.tool_calls.getD []).length != 0 && et then
          match handleToolCalls impl (llmMessage.tool_calls.getD []) fns c with
          | Except.error e => Except.error e
          | Except.ok tcr =>
            let c2 := objSpread c tcr.context_variables
            let a2 := match tcr.agent with
              | some x => x
              | Option.none => a
            runLoop provider impl et a2 (messages ++ tcr.messages) c2 (tc + 1) n
        else
          Except.ok { agent := a, messages := messages
                    , context_variables := c, totalTurns := tc }) := rfl

/-- The JSON round-trip copy of a message list is that list. -/
theorem deepCopyMessages_eq (ms : List Message) : deepCopyMessages ms = ms := by
  induction ms with
  | nil => rfl
  | cons m t ih =>
    show deepCopyMessage m :: deepCopyMessages t = m :: t
    rw [ih]
    exact rfl

/-- The JSON round-trip copy of a context store is that store. -/
theorem deepCopyCtx_eq (c : Ctx) : deepCopyCtx c = c := by
  induction c with
  | nil => rfl
  | cons kv t ih =>
    show (kv.1, kv.2) :: deepCopyCtx t = kv :: t
    rw [ih]

/-- Rebuilding a tool call field by field, as processLLMResponse does,
yields the same tool call. -/
theorem toolCall_rebuild_eq (tc : ToolCall) :
    ({ id := tc.id
     , function := { name := tc.function.name, arguments := tc.function.arguments }
     , type := tc.type } : ToolCall) = tc := rfl

/-- The executor loop is invariant under a message prefix already in the
accumulator: the prefix is carried through to the end unchanged, and the
recorded agent and context store do not depend on it. -/
theorem handleToolCallsLoop_append (impl : Impl) (fns : List FunctionMetadata)
    (ctxStore : Ctx) (tcs : List ToolCall) (m1 : List Message) :
    ∀ (m2 : List Message) (a : Option Agent) (c : Ctx),
      handleToolCallsLoop impl fns ctxStore tcs
        { messages := m1 ++ m2, agent := a, context_variables := c } =
      (handleToolCallsLoop impl fns ctxStore tcs
        { messages := m2, agent := a, context_variables := c }).map
        (fun pr => { pr with messages := m1 ++ pr.messages }) := by
  induction tcs with
  | nil => intro m2 a c; rfl
  | cons tc rest ih =>
    intro m2 a c
    simp only [handleToolCallsLoop]
    cases htc : toolCallStep impl fns ctxStore tc with
    | error e => rfl
    | ok p =>
      obtain ⟨ms, oa⟩ := p
      simp only
      rw [List.append_assoc]
      exact ih (m2 ++ ms) _ c

/-- Property assignment on a record whose keys avoid k appends (k, v). -/
theorem setKey_of_not_mem {α : Type} (l : List (String × α)) (k : String) (v : α)
    (h : k ∉ l.map Prod.fst) : setKey l k v = l ++ [(k, v)] := by
  induction l with
  | nil => rfl
  | cons kv t ih =>
    simp only [List.map_cons, List.mem_cons] at h
    push_neg at h
    simp only [setKey, List.cons_append]
    rw [if_neg (fun he => h.1 he.symm), ih h.2]

/-- The search for the ContextVariables-typed parameter finds the one
declared last when no earlier parameter has that type. -/
theorem find?_ctxParam_last (ps : List AgentFuncParamMeta)
    (ctxP : AgentFuncParamMeta)
    (hps : ∀ p ∈ ps, p.type ≠ "ContextVariables")
    (hc : ctxP.type = "ContextVariables") :
    (ps ++ [ctxP]).find? (fun p => p.type == "ContextVariables") = some ctxP := by
  induction ps with
  | nil => simp [List.find?, hc]
  | cons p t ih =>
    have hp : (p.type == "ContextVariables") = false := by
      simpa using hps p (by simp)
    simp only [List.cons_append, List.find?, hp]
    exact ih (fun q hq => hps q (by simp [hq]))

/-! The claim theorems. -/

/-- C1: the spec states that each tool's context-store contribution is
merged into the running store, so a run in which f1 contributes a = 1 and
f2 contributes b = 2 should end with pre = 0, a = 1 and b = 2.  The code
instead returns the store unchanged: handleToolCalls never copies a
result's context_variables field into its accumulator, so the
contributions of both tools are dropped and only pre = 0 survives.  This
theorem evaluates the embedded code at that failing input. -/
theorem contextContributionDropped_eval :
    runCtxOf (run providerC1 implC1 optsC1) = some [("pre", JValue.num 0)] := by
  rfl

/-- C3: a tool-call request naming an unregistered function yields exactly
one tool-role message, the not-found notice linked via the request id, the
executor does not raise, and the remaining requests of the turn are
processed exactly as they would have been on their own. -/
theorem unknownTool_single_message_recovered (impl : Impl)
    (fns : List FunctionMetadata) (ctxStore : Ctx) (tc : ToolCall)
    (rest : List ToolCall)
    (h : functionMapGet fns tc.function.name = Option.none) :
    handleToolCalls impl (tc :: rest) fns ctxStore =
      (handleToolCalls impl rest fns ctxStore).map
        (fun pr => { pr with messages := toolNotFoundMessage tc :: pr.messages }) := by
  unfold handleToolCalls
  simp only [handleToolCallsLoop, toolCallStep, h]
  have h2 := handleToolCallsLoop_append impl fns ctxStore rest
    [toolNotFoundMessage tc] [] Option.none ctxStore
  simpa using h2

/-- C3 witness: the theorem applied to the concrete unregistered request
tcU against an empty registry. -/
theorem unknownTool_witness :
    functionMapGet [] tcU.function.name = Option.none ∧
    handleToolCalls implNone [tcU] [] [] =
      (handleToolCalls implNone [] [] []).map
        (fun pr => { pr with messages := toolNotFoundMessage tcU :: pr.messages }) :=
  ⟨rfl, unknownTool_single_message_recovered implNone [] [] tcU [] rfl⟩

/-- C6: run never mutates the caller-supplied message array or context
store: with the caller's structures threaded as explicit cells, they come
back from runWithStore unchanged, and the deep copies taken on entry are
equal to the originals, so the originals stay deep-equal to pre-call
clones. -/
theorem run_preserves_caller_inputs (provider : Provider) (impl : Impl)
    (store : CallerStore) (agent : Agent) (max_turns : Int) (execTools : Bool) :
    (runWithStore provider impl store agent max_turns execTools).2 = store
    ∧ deepCopyMessages store.messages = store.messages
    ∧ deepCopyCtx store.context_variables = store.context_variables :=
  ⟨rfl, deepCopyMessages_eq _, deepCopyCtx_eq _⟩

/-- C7 counterexample: the claim states that arguments reach their
declared parameter positions regardless of payload key order and of the
declared position of the context-store parameter.  With fmC7, which
declares the context-store parameter first, the invocation receives the
payload value first and the store last, so declared position 0 does not
receive the store; with fmC7b and a payload listing b before a, the
invocation receives the values in payload order, so declared position 0
of a receives the value of b. -/
theorem ctxParam_not_bound_by_position :
    ((buildArgs fmC7 [("x", JValue.str "foo")] []).map (fun kv => kv.2) =
      [Arg.v (JValue.str "foo"), Arg.ctxArg []]
    ∧ (buildArgs fmC7 [("x", JValue.str "foo")] []).map (fun kv => kv.2) ≠
      [Arg.ctxArg [], Arg.v (JValue.str "foo")])
    ∧ ((buildArgs fmC7b [("b", JValue.num 2), ("a", JValue.num 1)] []).map
        (fun kv => kv.2) = [Arg.v (JValue.num 2), Arg.v (JValue.num 1)]
    ∧ (buildArgs fmC7b [("b", JValue.num 2), ("a", JValue.num 1)] []).map
        (fun kv => kv.2) ≠ [Arg.v (JValue.num 1), Arg.v (JValue.num 2)]) := by
  refine ⟨⟨rfl, ?_⟩, rfl, ?_⟩ <;> decide

/-- C7 (amended): the invocation receives the arguments positionally in
payload key order, with the context store appended after them when its
key is absent from the payload; hence every declared parameter receives
its own argument - and the store lands on the context-store parameter -
exactly when the payload lists the plain parameters in declaration order
and the context-store parameter is declared last. -/
theorem args_follow_declaration_when_ordered
    (fm : FunctionMetadata) (ps : List AgentFuncParamMeta)
    (ctxP : AgentFuncParamMeta) (v : AgentFuncParamMeta → JValue) (ctxStore : Ctx)
    (hparams : fm.params = ps ++ [ctxP])
    (hctx : ctxP.type = "ContextVariables")
    (hps : ∀ p ∈ ps, p.type ≠ "ContextVariables")
    (hname : ctxP.name ∉ ps.map (fun p => p.name)) :
    (buildArgs fm (ps.map (fun p => (p.name, v p))) ctxStore).map (fun kv => kv.2) =
      ps.map (fun p => Arg.v (v p)) ++ [Arg.ctxArg ctxStore] := by
  unfold buildArgs
  rw [hparams, find?_ctxParam_last ps ctxP hps hctx]
  dsimp only
  rw [setKey_of_not_mem]
  · simp [List.map_map, Function.comp]
  · simpa [List.map_map, Function.comp] using hname

/-- C7 witness: the amended theorem applied to the declaration a then cv
with the payload supplying a. -/
theorem args_follow_declaration_witness :
    fmC7w.params = psC7w ++ [ctxPC7w] ∧
    (buildArgs fmC7w (psC7w.map (fun p => (p.name, JValue.str "va")))
        [("k", JValue.num 1)]).map (fun kv => kv.2) =
      psC7w.map (fun _ => Arg.v (JValue.str "va")) ++ [Arg.ctxArg [("k", JValue.num 1)]] :=
  ⟨rfl, args_follow_declaration_when_ordered fmC7w psC7w ctxPC7w
    (fun _ => JValue.str "va") [("k", JValue.num 1)] rfl rfl
    (by decide) (by decide)⟩

/-- C8 counterexample: with one metadata-carrying handle and one handle
lacking metadata, the returned list is not the one-element list the
claimed omission would produce; the metadata-less handle contributes an
undefined entry at its own position, and the list keeps one entry per
handle. -/
theorem metadataless_handle_not_omitted :
    agentC8.getFunctionMetadata ≠ [some fmC8]
    ∧ agentC8.getFunctionMetadata = [some fmC8, Option.none]
    ∧ agentC8.getFunctionMetadata.length = 2 := by
  refine ⟨by decide, rfl, rfl⟩

/-- C8 (amended): listing function metadata returns one entry per
registered handle, in registration order: the handle's metadata when the
property resolves, and an undefined placeholder - not an omission - when
it does not; with no registered function list the result is empty. -/
theorem getFunctionMetadata_entry_per_handle :
    (∀ (a : Agent) (fs : List FuncHandle), a.functions = some fs →
      a.getFunctionMetadata = fs.map (fun f => f.functionMetadata))
    ∧ (∀ a : Agent, a.functions = Option.none → a.getFunctionMetadata = []) := by
  constructor
  · intro a fs h
    unfold Agent.getFunctionMetadata
    rw [h]
  · intro a h
    unfold Agent.getFunctionMetadata
    rw [h]

/-- C8 witness: the amended theorem applied to agentC8. -/
theorem getFunctionMetadata_witness :
    agentC8.functions = some hsC8 ∧
    agentC8.getFunctionMetadata = hsC8.map (fun f => f.functionMetadata) :=
  ⟨rfl, getFunctionMetadata_entry_per_handle.1 agentC8 hsC8 rfl⟩

/-- The loop guard admits at most the remaining number of further turns:
a normally-completed loop reports a turn count bounded by the entry count
plus the iterations the guard still allowed. -/
theorem runLoop_turns_le (provider : Provider) (impl : Impl) (et : Bool) :
    ∀ (remaining : Nat) (activeAgent : Agent) (ms : List Message) (c : Ctx)
      (turnCount : Nat) (r : RunOutcome),
      runLoop provider impl et activeAgent ms c turnCount remaining = Except.ok r →
      r.totalTurns ≤ turnCount + remaining := by
  intro remaining
  induction remaining with
  | zero =>
    intro a ms c tc r h
    simp only [runLoop] at h
    cases h
    simp
  | succ n ih =>
    intro a ms c tc r h
    simp only [runLoop] at h
    split at h
    · exact absurd h (by simp)
    · split at h
      · split at h
        · exact absurd h (by simp)
        · have := ih _ _ _ _ _ h
          omega
      · cases h
        simp

/-- The assistant message produced from a completion carries as many tool
calls as the completion did. -/
theorem processLLMResponse_toolCalls_len (cc : ChatCompletionMessage) (a : Agent) :
    ((processLLMResponse (some cc) a).tool_calls.getD []).length =
      (cc.tool_calls.getD []).length := by
  simp only [processLLMResponse]
  cases htc : cc.tool_calls with
  | none => rfl
  | some tcs =>
    by_cases hlen : tcs.length > 0
    · simp [hlen]
    · simp [hlen]
      omega

/-- When the provider answers every request with a completion carrying
tool calls and tool execution is on, every allowed turn is consumed: a
normally-completed loop reports exactly the entry count plus the number
of iterations the guard allowed. -/
theorem runLoop_turns_exact (provider : Provider) (impl : Impl)
    (hp : ∀ params, ∃ cc, provider params = some cc ∧ (cc.tool_calls.getD []) ≠ []) :
    ∀ (remaining : Nat) (activeAgent : Agent) (ms : List Message) (c : Ctx)
      (turnCount : Nat) (r : RunOutcome),
      runLoop provider impl true activeAgent ms c turnCount remaining = Except.ok r →
      r.totalTurns = turnCount + remaining := by
  intro remaining
  induction remaining with
  | zero =>
    intro a ms c tc r h
    simp only [runLoop] at h
    cases h
    simp
  | succ n ih =>
    intro a ms c tc r h
    simp only [runLoop] at h
    split at h
    · exact absurd h (by simp)
    · rename_i fns hfns
      obtain ⟨cc, hcc, hne⟩ := hp (mkProviderParams a fns ms c)
      rw [hcc] at h
      split at h
      · split at h
        · exact absurd h (by simp)
        · have := ih _ _ _ _ _ h
          omega
      · rename_i hcond
        exfalso
        apply hcond
        have hlen : (cc.tool_calls.getD []).length ≠ 0 := by
          simpa [List.length_eq_zero] using hne
        simp [processLLMResponse_toolCalls_len, hlen]

/-- C2 counterexample: the claim states that whenever the provider
returns a tool-call request on every turn, a run with maxTurns = 3
terminates after exactly 3 tool-execution cycles.  With a provider that
always requests the registered tool g with an unparseable payload, the
run instead aborts with the JSON.parse error on the very first cycle. -/
theorem run_badPayload_aborts_before_maxTurns :
    run (providerLoop cBad) implNone optsC2bad =
      Except.error (OrchError.jsonParse "b1") := by
  rfl

/-- C2 (amended): with maxTurns = N, a normally-completed run performs at
most N tool-execution cycles; and when tool execution is on and the
provider answers every request with a completion carrying tool calls, a
normally-completed run performs exactly N cycles (a run aborted by a
fatal error, such as an unparseable payload, may stop earlier). -/
theorem run_toolCycles_bound_and_exact (provider : Provider) (impl : Impl)
    (opts : RunOptions) (N : Nat) (r : RunOutcome) :
    (opts.max_turns = (N : Int) → run provider impl opts = Except.ok r →
      r.totalTurns ≤ N)
    ∧ (opts.max_turns = (N : Int) → opts.execute_tools = true →
      (∀ params, ∃ cc, provider params = some cc ∧ (cc.tool_calls.getD []) ≠ []) →
      run provider impl opts = Except.ok r → r.totalTurns = N) := by
  constructor
  · intro hN h
    unfold run at h
    rw [hN] at h
    have := runLoop_turns_le provider impl opts.execute_tools _ _ _ _ _ _ h
    simpa using this
  · intro hN het hp h
    unfold run at h
    rw [hN, het] at h
    have := runLoop_turns_exact provider impl hp _ _ _ _ _ _ h
    simpa using this

/-- C2 witness: a provider that always requests the unknown tool of
cUnknown attains the bound, completing a maxTurns = 1 run after exactly
one tool-execution cycle. -/
theorem run_toolCycles_witness :
    optsC2w.max_turns = ((1 : Nat) : Int) ∧ optsC2w.execute_tools = true ∧
    outC2w.totalTurns = 1 := by
  refine ⟨rfl, rfl, ?_⟩
  exact (run_toolCycles_bound_and_exact (providerLoop cUnknown) implNone
      optsC2w 1 outC2w).2
    rfl rfl (fun _ => ⟨cUnknown, rfl, by decide⟩) (by rfl)

/-- C10: a run invoked with a non-positive maxTurns never enters the
loop: it returns the initial agent, the (copied, hence deep-equal)
caller messages and context store, reports zero turns, and its result
does not depend on the provider or on the tool implementations - no
provider call and no tool execution is observable. -/
theorem run_nonpositive_maxTurns_identity (provider : Provider) (impl : Impl)
    (opts : RunOptions) (h : opts.max_turns ≤ 0) :
    run provider impl opts = Except.ok
      { agent := opts.agent, messages := opts.messages
      , context_variables := opts.context_variables, totalTurns := 0 }
    ∧ ∀ (p2 : Provider) (i2 : Impl), run provider impl opts = run p2 i2 opts := by
  have hz : opts.max_turns.toNat = 0 := by omega
  have key : ∀ (p : Provider) (i : Impl), run p i opts = Except.ok
      { agent := opts.agent, messages := opts.messages
      , context_variables := opts.context_variables, totalTurns := 0 } := by
    intro p i
    unfold run
    rw [hz]
    simp only [runLoop]
    rw [deepCopyMessages_eq, deepCopyCtx_eq]
  exact ⟨key provider impl, fun p2 i2 => (key provider impl).trans (key p2 i2).symm⟩

/-- C4 counterexample: the claim states that a tool return value whose
string rendering is impossible makes the run fail with a cast error that
propagates out of run.  In the C4 scenario the only tool returns such a
value, yet the run completes normally: the cast error is caught by the
executor's per-invocation handler and surfaced as a tool-role error
message in the returned history. -/
theorem castError_not_fatal :
    runIsOk (run providerC4 implC4 optsC4) = true
    ∧ toolErrorMessage (mkToolCall "c1" "f" (some [])) "boom" ∈
        runMsgsOf (run providerC4 implC4 optsC4) := by
  refine ⟨rfl, ?_⟩
  decide

/-- C4 (amended): the result normalizer passes an object with a string
value field through unchanged; it wraps an Agent instance into a Result
naming that agent with the next-agent field set to the instance; it
renders any other value as its string form; and when rendering is
impossible it fails with a cast error that the tool-call executor catches
like any invocation failure, emitting a tool-role error message and
continuing with the remaining requests - the error does not propagate out
of run. -/
theorem handleFunctionResult_classification :
    (∀ r : ResultE, handleFunctionResult (RawValue.result r) = Except.ok r)
    ∧ (∀ a : Agent, handleFunctionResult (RawValue.agentV a) =
        Except.ok { value := agentResultValue a, agent := some a
                  , context_variables := some [], messages := Option.none })
    ∧ (∀ s : String, handleFunctionResult (RawValue.plain s) =
        Except.ok { value := s, agent := Option.none
                  , context_variables := some [], messages := Option.none })
    ∧ (∀ d : String, handleFunctionResult (RawValue.unstringable d) = Except.error d)
    ∧ (∀ (impl : Impl) (fns : List FunctionMetadata) (ctxStore : Ctx)
        (tc : ToolCall) (rest : List ToolCall) (fm : FunctionMetadata)
        (payload : List (String × JValue)) (d : String),
      functionMapGet fns tc.function.name = some fm →
      tc.function.arguments = some payload →
      impl fm.func ((buildArgs fm payload ctxStore).map (fun kv => kv.2)) =
        FuncOutcome.ret (RawValue.unstringable d) →
      handleToolCalls impl (tc :: rest) fns ctxStore =
        (handleToolCalls impl rest fns ctxStore).map
          (fun pr => { pr with messages := toolErrorMessage tc d :: pr.messages })) := by
  refine ⟨fun r => rfl, fun a => rfl, fun s => rfl, fun d => rfl, ?_⟩
  intro impl fns ctxStore tc rest fm payload d h1 h2 h3
  unfold handleToolCalls
  simp only [handleToolCallsLoop, toolCallStep, h1, h2, h3, handleFunctionResult]
  have h4 := handleToolCallsLoop_append impl fns ctxStore rest
    [toolErrorMessage tc d] [] Option.none ctxStore
  simpa using h4

/-- C4 witness: the amended theorem applied to a plain string result and
to the concrete unstringable invocation of the C4 scenario. -/
theorem handleFunctionResult_witness :
    handleFunctionResult (RawValue.plain "ok") =
      Except.ok { value := "ok", agent := Option.none
                , context_variables := some [], messages := Option.none }
    ∧ handleToolCalls implC4 [mkToolCall "c1" "f" (some [])] fnsC4 [] =
      (handleToolCalls implC4 [] fnsC4 []).map
        (fun pr =>
          { pr with messages := toolErrorMessage (mkToolCall "c1" "f" (some [])) "boom" :: pr.messages }) :=
  ⟨handleFunctionResult_classification.2.2.1 "ok",
   handleFunctionResult_classification.2.2.2.2 implC4 fnsC4 []
     (mkToolCall "c1" "f" (some [])) [] { name := "f", func := 7 } [] "boom"
     rfl rfl rfl⟩

/-- C5: within one turn, when several tool results carry a next-agent,
only the last one is retained (shown for the two handoff tools of the C5
scenario, for arbitrary returned agents); and when a tool's normalized
result names an agent different from the active one and the run then
terminates naturally on the following turn, the run's final agent is the
handed-off agent, not the one originally passed in (for any handoff
target whose metadata resolves). -/
theorem lastAgentWins_and_handoff :
    (∀ (a1 a2 : Agent) (c : Ctx),
      handleToolCalls (implC5 a1 a2) [tc1C5, tc2C5] fnsC5 c =
        Except.ok { messages := [toolResultMessage tc1C5 (agentResultValue a1)
                               , toolResultMessage tc2C5 (agentResultValue a2)]
                  , agent := some a2, context_variables := c })
    ∧ (∀ (b : Agent) (nm : String) (fnsB : List FunctionMetadata),
      checkFunctionMetadata b = Except.ok fnsB → b ≠ agentA5 nm →
      runAgentOf (run providerC5 (implConst b) (optsC5 nm)) = some b ∧
      runAgentOf (run providerC5 (implConst b) (optsC5 nm)) ≠ some (agentA5 nm)) := by
  constructor
  · intro a1 a2 c
    rfl
  · intro b nm fnsB hb hne
    have step1 : run providerC5 (implConst b) (optsC5 nm) =
        runLoop providerC5 (implConst b) true b
          [ userMsg
          , { role := Role.assistant, content := "", sender := some nm
            , tool_calls := some [mkToolCall "t" "handoff" (some [])] }
          , toolResultMessage (mkToolCall "t" "handoff" (some [])) (agentResultValue b) ]
          [] 1 (3 + 1) := rfl
    have step2 : runAgentOf (runLoop providerC5 (implConst b) true b
          [ userMsg
          , { role := Role.assistant, content := "", sender := some nm
            , tool_calls := some [mkToolCall "t" "handoff" (some [])] }
          , toolResultMessage (mkToolCall "t" "handoff" (some [])) (agentResultValue b) ]
          [] 1 (3 + 1)) = some b := by
      rw [runLoop_succ_eq, hb]
      rfl
    rw [step1]
    refine ⟨step2, ?_⟩
    rw [step2]
    simp [hne]

/-- C5 witness: the handoff part applied to the concrete target agentB5
and initial agent agentA5 A. -/
theorem lastAgentWins_witness :
    checkFunctionMetadata agentB5 = Except.ok [] ∧ agentB5 ≠ agentA5 "A" ∧
    runAgentOf (run providerC5 (implConst agentB5) (optsC5 "A")) = some agentB5 := by
  refine ⟨rfl, by decide, ?_⟩
  exact (lastAgentWins_and_handoff.2 agentB5 "A" [] rfl (by decide)).1

/-- C9: a registered tool-call request whose payload fails to parse makes
the executor fail with the parse error instead of emitting a tool-role
message; through the turn loop that error propagates out of run, aborting
it; by contrast, an error thrown by the invocation itself is recovered
into a tool-role message and processing continues. -/
theorem parseError_fatal_execError_recovered :
    (∀ (impl : Impl) (fns : List FunctionMetadata) (ctxStore : Ctx)
       (tc : ToolCall) (rest : List ToolCall) (fm : FunctionMetadata),
      functionMapGet fns tc.function.name = some fm →
      tc.function.arguments = Option.none →
      handleToolCalls impl (tc :: rest) fns ctxStore =
        Except.error (OrchError.jsonParse tc.id))
    ∧ (∀ (provider : Provider) (impl : Impl) (opts : RunOptions)
        (fns : List FunctionMetadata) (cc : ChatCompletionMessage)
        (tc : ToolCall) (fm : FunctionMetadata),
      0 < opts.max_turns → opts.execute_tools = true →
      checkFunctionMetadata opts.agent = Except.ok fns →
      provider (mkProviderParams opts.agent fns (deepCopyMessages opts.messages)
        (deepCopyCtx opts.context_variables)) = some cc →
      cc.tool_calls = some [tc] →
      functionMapGet fns tc.function.name = some fm →
      tc.function.arguments = Option.none →
      run provider impl opts = Except.error (OrchError.jsonParse tc.id))
    ∧ (∀ (impl : Impl) (fns : List FunctionMetadata) (ctxStore : Ctx)
        (tc : ToolCall) (rest : List ToolCall) (fm : FunctionMetadata)
        (payload : List (String × JValue)) (e : String),
      functionMapGet fns tc.function.name = some fm →
      tc.function.arguments = some payload →
      impl fm.func ((buildArgs fm payload ctxStore).map (fun kv => kv.2)) =
        FuncOutcome.throw e →
      handleToolCalls impl (tc :: rest) fns ctxStore =
        (handleToolCalls impl rest fns ctxStore).map
          (fun pr => { pr with messages := toolErrorMessage tc e :: pr.messages })) := by
  refine ⟨?_, ?_, ?_⟩
  · intro impl fns ctxStore tc rest fm h1 h2
    unfold handleToolCalls
    simp only [handleToolCallsLoop, toolCallStep, h1, h2]
  · intro provider impl opts fns cc tc fm h1 h2 h3 h4 h5 h6 h7
    obtain ⟨k, hk⟩ : ∃ k, opts.max_turns.toNat = k + 1 :=
      ⟨opts.max_turns.toNat - 1, by omega⟩
    unfold run
    rw [h2, hk]
    simp only [runLoop]
    rw [h3]
    dsimp only
    rw [h4]
    simp only [processLLMResponse]
    rw [h5]
    simp [handleToolCalls, handleToolCallsLoop, toolCallStep, h6, h7,
      toolCall_rebuild_eq]
  · intro impl fns ctxStore tc rest fm payload e h1 h2 h3
    unfold handleToolCalls
    simp only [handleToolCallsLoop, toolCallStep, h1, h2, h3]
    have h4 := handleToolCallsLoop_append impl fns ctxStore rest
      [toolErrorMessage tc e] [] Option.none ctxStore
    simpa using h4

/-- C9 witness: the run-level part applied to the concrete C9 scenario,
whose provider requests the registered tool p with an unparseable
payload. -/
theorem parseError_fatal_witness :
    (0 : Int) < optsC9.max_turns ∧
    run (providerLoop cBadC9) implNone optsC9 =
      Except.error (OrchError.jsonParse "x1") := by
  refine ⟨by decide, ?_⟩
  exact parseError_fatal_execError_recovered.2.1 (providerLoop cBadC9) implNone
    optsC9 fnsC9 cBadC9 (mkToolCall "x1" "p" Option.none)
    { name := "p", func := 13 } (by decide) rfl rfl rfl rfl rfl rfl

/-- C10 witness: the theorem applied to a concrete maxTurns = 0 run. -/
theorem run_nonpositive_maxTurns_witness :
    optsC10.max_turns ≤ 0 ∧
    run (providerLoop cUnknown) implNone optsC10 = Except.ok
      { agent := optsC10.agent, messages := optsC10.messages
      , context_variables := optsC10.context_variables, totalTurns := 0 } :=
  ⟨by decide, (run_nonpositive_maxTurns_identity (providerLoop cUnknown) implNone
    optsC10 (by decide)).1⟩
